import Mathlib

/-!
Shallow embedding of `src/duck-hunt.py` (a single-file pygame duck-shooting
game).  Python floats are modelled as exact rationals (`ℚ`); the game's calls
to `random.*` are modelled as oracle parameters supplying the drawn values;
the transcendental `math.sin(...)` applied to a duck's wobble phase is
modelled as an oracle-supplied value per duck per tick (the game only ever
uses the resulting number, never any property of `sin`).  Rendering, sounds,
fonts and colors are cosmetic and are not part of the model (the spec
excludes them); the decorative clouds are kept because `Game.update` moves
them in every state.  `math.hypot` (used only as a sort key in
`Game.shoot_at`) is modelled by the squared Euclidean distance `dist2`,
which induces the same ordering since `Real.sqrt` is monotone.
-/

namespace DuckHunt

/-- Configuration constant `TOTAL_LEVELS = 10` from the source. -/
def TOTAL_LEVELS : ℕ := 10

/-- Configuration constant `HEALTH_PER_LEVEL = 5`; health is an `ℤ` because
the update loop can drive it below zero. -/
def HEALTH_PER_LEVEL : ℤ := 5

/-- Configuration constant `DUCKS_TO_CLEAR = 10` (hits required per level). -/
def DUCKS_TO_CLEAR : ℕ := 10

/-- Configuration constant `BULLETS_AFTER_LEVEL_5 = 15`. -/
def BULLETS_AFTER_LEVEL_5 : ℕ := 15

/-- Configuration constant `SCREEN_W = 1000`. -/
def SCREEN_W : ℚ := 1000

/-- Configuration constant `SCREEN_H = 640`. -/
def SCREEN_H : ℚ := 640

/-- Configuration constant `DUCK_BASE_SPEED = 120`. -/
def DUCK_BASE_SPEED : ℚ := 120

/-- Utility `clamp(x, a, b) = max(a, min(b, x))` from the source. -/
def clamp (x a b : ℚ) : ℚ := max a (min b x)

/-- The `Duck` object: position, velocity, wobble parameters, age, dead flag,
fall state and hit-box size, as set up in `Duck.__init__` and mutated by
`Duck.update`.  Cosmetic color fields are omitted. -/
structure Duck where
  x : ℚ
  y : ℚ
  vx : ℚ
  amp : ℚ
  period : ℚ
  age : ℚ
  dead : Bool
  fall_speed : ℚ
  hit_anim : ℚ
  width : ℚ
  height : ℚ
  flap : ℚ
  spawn_time : ℚ
  level : ℕ
  deriving DecidableEq

/-- Random draws consumed by `Duck.__init__`: the chosen entry side, the
vertical position drawn by `random.randint(110, SCREEN_H - 220)`, the
`random.random()` jitters for speed, amplitude and period, and the initial
flap phase `random.random() * 2 * math.pi` (supplied directly as a value,
since only the number is ever used). -/
structure DuckDraws where
  side_left : Bool
  y0 : ℚ
  r : ℚ
  rAmp : ℚ
  rPeriod : ℚ
  flap0 : ℚ
  deriving DecidableEq

/-- `Duck.__init__(level)`: spawn at x = -80 (left) or SCREEN_W + 80 (right),
horizontal speed `DUCK_BASE_SPEED * (1 + (level-1)*0.12) * (0.95 + r*0.35)`
signed by the entry side, wobble amplitude `18 + rAmp*18`, period
`1 + rPeriod*1.6`, width `int(68 * DUCK_SCALE) = 68`, height
`int(56 * DUCK_SCALE) = 56` (`DUCK_SCALE = 1.0`). -/
def mkDuck (level : ℕ) (d : DuckDraws) : Duck :=
  let sign : ℚ := if d.side_left then 1 else -1
  let speed_factor : ℚ := 1 + ((level : ℚ) - 1) * (12/100)
  { x := if d.side_left then -80 else SCREEN_W + 80
    y := d.y0
    vx := sign * DUCK_BASE_SPEED * speed_factor * (95/100 + d.r * (35/100))
    amp := 18 + d.rAmp * 18
    period := 1 + d.rPeriod * (16/10)
    age := 0
    dead := false
    fall_speed := 0
    hit_anim := 0
    width := 68
    height := 56
    flap := d.flap0
    spawn_time := 0
    level := level }

/-- `Duck.update(dt)`.  `sinVal` stands for the evaluated
`math.sin(self.age * 2π / self.period)` (with the already-incremented age),
and `drift` for `random.random() > 0.5` in the dead-fall branch. -/
def Duck.update (d : Duck) (sinVal : ℚ) (drift : Bool) (dt : ℚ) : Duck :=
  let d1 := { d with spawn_time := d.spawn_time + dt }
  if d1.dead then
    let fs := d1.fall_speed + 600 * dt
    { d1 with fall_speed := fs
              y := d1.y + fs * dt
              x := d1.x + 60 * dt * (if drift then 1 else -1)
              hit_anim := d1.hit_anim + dt }
  else
    { d1 with age := d1.age + dt
              y := d1.y + sinVal * d1.amp * dt
              x := d1.x + d1.vx * dt
              flap := d1.flap + dt * 20 }

/-- `Duck.hit_test(px, py)`: a dead duck is never hit; otherwise test the
point against the ellipse centered on the duck with semi-axes
`rx = width * 0.6`, `ry = height * 0.6`. -/
def Duck.hitTest (d : Duck) (px py : ℚ) : Bool :=
  if d.dead then false
  else
    let dx := px - d.x
    let dy := py - d.y
    let rx := d.width * (6/10)
    let ry := d.height * (6/10)
    decide ((dx*dx)/(rx*rx) + (dy*dy)/(ry*ry) ≤ 1)

/-- Squared Euclidean distance from the duck's center to a point; stands for
the sort key `math.hypot(k.x - x, k.y - y)` of `Game.shoot_at` (the square
root is strictly monotone, so sorting by `dist2` sorts by `hypot`). -/
def dist2 (d : Duck) (x y : ℚ) : ℚ :=
  (d.x - x) * (d.x - x) + (d.y - y) * (d.y - y)

/-- The `Particle` object (cosmetic hit sparks); kept because a successful
shot appends 16 of them and `Game.update` ages and expires them. -/
structure Particle where
  x : ℚ
  y : ℚ
  vx : ℚ
  vy : ℚ
  life : ℚ
  age : ℚ
  size : ℚ
  deriving DecidableEq

/-- `Particle.__init__(x, y)` with the four uniform draws
(vx ∈ [-220,220], vy ∈ [-160,-40], life ∈ [0.5,1.1], size ∈ [2,6])
supplied as a quadruple of drawn values. -/
def mkParticle (x y : ℚ) (dr : ℚ × ℚ × ℚ × ℚ) : Particle :=
  { x := x, y := y, vx := dr.1, vy := dr.2.1, life := dr.2.2.1,
    age := 0, size := dr.2.2.2 }

/-- `Particle.update(dt)`: gravity on `vy`, then integrate position with the
updated `vy`, exactly as the source mutates the fields in order. -/
def Particle.update (p : Particle) (dt : ℚ) : Particle :=
  let vy := p.vy + 600 * dt
  { p with age := p.age + dt, vy := vy,
           x := p.x + p.vx * dt, y := p.y + vy * dt }

/-- A decorative `Cloud`; `Game.update` moves clouds in every state. -/
structure Cloud where
  x : ℚ
  y : ℚ
  scale : ℚ
  speed : ℚ
  w : ℚ
  h : ℚ
  deriving DecidableEq

/-- `Cloud.update(dt)`: drift, then wrap around the screen edges; `r` stands
for the `random.randint(0, 200)` drawn on a wrap.  The two wrap branches are
mutually exclusive (`speed > 0` vs `speed < 0`), matching the sequential
`if` statements of the source. -/
def Cloud.update (c : Cloud) (dt : ℚ) (r : ℕ) : Cloud :=
  let x := c.x + c.speed * dt
  if 0 < c.speed ∧ SCREEN_W + 100 < x - c.w then
    { c with x := -c.w - (r : ℚ) }
  else if c.speed < 0 ∧ x + c.w < -200 then
    { c with x := SCREEN_W + (r : ℚ) }
  else
    { c with x := x }

/-- Transient HUD notices set by the game; the source stores f-strings, the
model keeps the message identity (and the level number it interpolates). -/
inductive Msg where
  | empty
  | levelStart (n : ℕ)
  | escaped
  | hit
  | miss
  | noBullets
  | levelComplete (n : ℕ)
  | levelFailed (n : ℕ)
  deriving DecidableEq

/-- The finite state machine values of `Game.state`. -/
inductive GState where
  | playing
  | level_end
  | game_over
  | victory
  deriving DecidableEq

/-- The `Game` object.  `bullets = none` models `math.inf` (the unlimited
pool of levels 1-5), `bullets = some n` a finite pool.  `running` (the loop
flag) and the sound/font handles are omitted. -/
structure Game where
  level : ℕ
  score : ℕ
  health : ℤ
  bullets : Option ℕ
  ducks : List Duck
  particles : List Particle
  hits_this_level : ℕ
  time_since_last_spawn : ℚ
  spawn_rate : ℚ
  paused : Bool
  message : Msg
  message_time : ℚ
  state : GState
  clouds : List Cloud
  deriving DecidableEq

/-- `Game._setup_level()`: reset health, hit counter, ducks, particles and
spawn timer; the bullet pool is `BULLETS_AFTER_LEVEL_5` for level > 5 and
unlimited otherwise; the spawn interval is
`max(0.35, 1.2 - (level - 1) * 0.08)`; state becomes `playing`. -/
def setupLevel (g : Game) : Game :=
  { g with health := HEALTH_PER_LEVEL
           hits_this_level := 0
           ducks := []
           particles := []
           time_since_last_spawn := 0
           bullets := if 5 < g.level then some BULLETS_AFTER_LEVEL_5 else none
           spawn_rate := max (35/100) (12/10 - ((g.level : ℚ) - 1) * (8/100))
           message := Msg.levelStart g.level
           message_time := 22/10
           state := GState.playing }

/-- `Game.__init__()` followed by the `_setup_level()` it calls; the clouds
created by `_make_clouds()` (random decorative state) are a parameter. -/
def initGame (clouds : List Cloud) : Game :=
  setupLevel
    { level := 1, score := 0, health := HEALTH_PER_LEVEL, bullets := none,
      ducks := [], particles := [], hits_this_level := 0,
      time_since_last_spawn := 0, spawn_rate := 12/10, paused := false,
      message := Msg.empty, message_time := 0, state := GState.playing,
      clouds := clouds }

/-- `Game._on_level_cleared()`: on the last level the state goes directly to
`victory`, otherwise to `level_end`. -/
def onLevelCleared (g : Game) : Game :=
  { g with message := Msg.levelComplete g.level
           message_time := 25/10
           state := if TOTAL_LEVELS ≤ g.level then GState.victory
                    else GState.level_end }

/-- `Game._on_level_failed()`: message and transition to `game_over`. -/
def onLevelFailed (g : Game) : Game :=
  { g with message := Msg.levelFailed g.level
           message_time := 25/10
           state := GState.game_over }

/-- Random draws consumed by one call of `Game.update`: the wrap draws of
the clouds, the `Duck.__init__` draws for the primary and the bonus spawn,
the `random.random()` roll deciding the bonus spawn, and per snapshot index
the wobble sine value and the dead-fall drift sign of `Duck.update`. -/
structure TickOracle where
  cloudR : ℕ → ℕ
  spawn1 : DuckDraws
  spawn2 : DuckDraws
  bonusRoll : ℚ
  wobble : ℕ → ℚ
  drift : ℕ → Bool

/-- The cloud-motion pass at the top of `Game.update` (runs in every state). -/
def updateClouds (o : TickOracle) (dt : ℚ) (cs : List Cloud) : List Cloud :=
  cs.enum.map fun p => p.2.update dt (o.cloudR p.1)

/-- The duck loop of `Game.update`: iterate over a snapshot of the duck
list (`for d in list(self.ducks)`), update each duck in place, drop escaped
live ducks (`x < -140 or x > SCREEN_W + 140`) while decrementing health and
invoking `_on_level_failed()` whenever `health <= 0`, and drop dead ducks
that fell past the ground or finished the animation.  `i` is the snapshot
index used to address the per-duck oracle draws; the accumulating game
carries the kept ducks in order. -/
def duckPass (o : TickOracle) (dt : ℚ) : ℕ → List Duck → Game → Game
  | _, [], g => g
  | i, d :: rest, g =>
    let du := d.update (o.wobble i) (o.drift i) dt
    if du.dead = false then
      if du.x < -140 ∨ SCREEN_W + 140 < du.x then
        let g1 := { g with health := g.health - 1,
                           message := Msg.escaped, message_time := 16/10 }
        let g2 := if g1.health ≤ 0 then onLevelFailed g1 else g1
        duckPass o dt (i+1) rest g2
      else
        duckPass o dt (i+1) rest { g with ducks := g.ducks ++ [du] }
    else
      if SCREEN_H + 120 < du.y ∨ 3 < du.hit_anim then
        duckPass o dt (i+1) rest g
      else
        duckPass o dt (i+1) rest { g with ducks := g.ducks ++ [du] }

/-- The spawn-control block of `Game.update`: advance the spawn timer and,
when it reaches the spawn interval, reset it and spawn a duck (plus, with
probability `clamp((level-1)*0.06, 0, 0.45)`, a bonus duck). -/
def spawnPhase (o : TickOracle) (g : Game) (dt : ℚ) : Game :=
  if g.spawn_rate ≤ g.time_since_last_spawn + dt then
    let ga := { g with time_since_last_spawn := 0,
                       ducks := g.ducks ++ [mkDuck g.level o.spawn1] }
    if o.bonusRoll < clamp (((ga.level : ℚ) - 1) * (6/100)) 0 (45/100) then
      { ga with ducks := ga.ducks ++ [mkDuck ga.level o.spawn2] }
    else ga
  else
    { g with time_since_last_spawn := g.time_since_last_spawn + dt }

/-- `Game.update(dt)`: move the clouds; outside `playing` only decay the
message timer and return.  In `playing`: run the spawn control, run the
duck loop over a snapshot, age the particles and drop the expired ones;
finally, when `hits_this_level >= DUCKS_TO_CLEAR`, invoke
`_on_level_cleared()`. -/
def Game.update (g : Game) (o : TickOracle) (dt : ℚ) : Game :=
  let g0 := { g with clouds := updateClouds o dt g.clouds }
  if g0.state ≠ GState.playing then
    { g0 with message_time := max 0 (g0.message_time - dt) }
  else
    let g1 := spawnPhase o g0 dt
    let g2 := duckPass o dt 0 g1.ducks { g1 with ducks := [] }
    let g3 := { g2 with particles :=
      (g2.particles.map fun p => p.update dt).filter fun p => p.age ≤ p.life }
    if DUCKS_TO_CLEAR ≤ g3.hits_this_level then onLevelCleared g3 else g3

/-- Random draws consumed by one call of `Game.shoot_at`: the fall-speed
jitter of a killed duck and, per particle index, the four `Particle`
draws. -/
structure ShotOracle where
  rFall : ℚ
  pdraw : ℕ → ℚ × ℚ × ℚ × ℚ

/-- A default duck used only to totalize list indexing; every index the
model ever produces is in range. -/
def dfltDuck : Duck :=
  { x := 0, y := 0, vx := 0, amp := 0, period := 1, age := 0, dead := false,
    fall_speed := 0, hit_anim := 0, width := 68, height := 56, flap := 0,
    spawn_time := 0, level := 1 }

/-- The index order in which `Game.shoot_at` examines the ducks:
`sorted(self.ducks, key=lambda k: math.hypot(k.x - x, k.y - y))` modelled as
a merge sort of the positions by squared distance. -/
def sortIdx (g : Game) (x y : ℚ) : List ℕ :=
  (List.range g.ducks.length).mergeSort fun i j =>
    decide (dist2 (g.ducks.getD i dfltDuck) x y ≤
            dist2 (g.ducks.getD j dfltDuck) x y)

/-- The position of the duck the shot kills, if any: the first duck in
distance order whose `hit_test` succeeds (the loop of `Game.shoot_at`
breaks at the first hit). -/
def killedIdx (g : Game) (x y : ℚ) : Option ℕ :=
  (sortIdx g x y).find? fun i => (g.ducks.getD i dfltDuck).hitTest x y

/-- The guard `self.bullets == 0` of `Game.shoot_at` (`math.inf == 0` is
false, so the unlimited pool never trips it). -/
def bulletsIsZero : Option ℕ → Bool
  | none => false
  | some n => n == 0

/-- The decrement `if not math.isinf(self.bullets): self.bullets -= 1`. -/
def decBullets : Option ℕ → Option ℕ
  | none => none
  | some n => some (n - 1)

/-- `Game.shoot_at(x, y)`: no-op outside `playing`; with an empty finite
pool raise the no-bullets notice and stop; otherwise consume a bullet (if
finite), examine the ducks in distance order and kill the first one whose
hit test succeeds (mark it dead, set its fall speed, add the score bonus,
bump the hit counter, spawn 16 particles at its position, raise the hit
notice); if none matches raise the miss notice. -/
def shootAt (so : ShotOracle) (g : Game) (x y : ℚ) : Game :=
  if g.state ≠ GState.playing then g
  else if bulletsIsZero g.bullets then
    { g with message := Msg.noBullets, message_time := 16/10 }
  else
    let gb := { g with bullets := decBullets g.bullets }
    match killedIdx gb x y with
    | some i =>
      let d := gb.ducks.getD i dfltDuck
      { gb with
          ducks := gb.ducks.set i
            { d with dead := true, fall_speed := 80 + so.rFall * 80 },
          score := gb.score + 100 + gb.level * 20,
          hits_this_level := gb.hits_this_level + 1,
          particles := gb.particles ++
            (List.range 16).map fun k => mkParticle d.x d.y (so.pdraw k),
          message := Msg.hit, message_time := 12/10 }
    | none => { gb with message := Msg.miss, message_time := 9/10 }

/-- `Game.on_click(x, y)`: shoot while `playing`; in `level_end` either go
to `victory` (when on the last level) or advance a level and set it up; in
`game_over` retry the level; in `victory` restart at level 1 with the score
cleared. -/
def onClick (so : ShotOracle) (g : Game) (x y : ℚ) : Game :=
  match g.state with
  | GState.playing => shootAt so g x y
  | GState.level_end =>
      if TOTAL_LEVELS ≤ g.level then { g with state := GState.victory }
      else setupLevel { g with level := g.level + 1 }
  | GState.game_over => setupLevel g
  | GState.victory => setupLevel { g with level := 1, score := 0 }

/-- The input events of the main loop that touch game state: a left click at
a point, the pause toggle key `p`, and the debug level-skip key `n`. -/
inductive Event where
  | click (x y : ℚ)
  | keyP
  | keyN
  deriving DecidableEq

/-- One event dispatch of the main loop. -/
def handleEvent (so : ShotOracle) (g : Game) : Event → Game
  | Event.click x y => onClick so g x y
  | Event.keyP => { g with paused := !g.paused }
  | Event.keyN =>
      if g.state = GState.playing then
        { g with hits_this_level := DUCKS_TO_CLEAR }
      else g

/-- The event loop of one frame; `i` indexes the shot oracles of the
successive events. -/
def processEvents (so : ℕ → ShotOracle) : ℕ → Game → List Event → Game
  | _, g, [] => g
  | i, g, e :: es => processEvents so (i+1) (handleEvent (so i) g e) es

/-- One iteration of the main loop: dispatch the pending events, then — only
when the pause flag is clear after the events — run `Game.update(dt)`. -/
def tick (o : TickOracle) (so : ℕ → ShotOracle) (g : Game)
    (events : List Event) (dt : ℚ) : Game :=
  let g1 := processEvents so 0 g events
  if g1.paused then g1 else g1.update o dt

/-- The states the program can reach: the freshly constructed game (with any
decorative clouds), closed under main-loop iterations with any random draws,
any event batch and any frame time. -/
inductive Reachable : Game → Prop
  | init (clouds : List Cloud) : Reachable (initGame clouds)
  | step (o : TickOracle) (so : ℕ → ShotOracle) (g : Game)
      (events : List Event) (dt : ℚ) :
      Reachable g → Reachable (tick o so g events dt)


/-! Preservation lemmas about the duck loop and the shot handler. -/

/-- The duck loop never touches the hit counter. -/
lemma duckPass_hits (o : TickOracle) (dt : ℚ) :
    ∀ (l : List Duck) (i : ℕ) (g : Game),
      (duckPass o dt i l g).hits_this_level = g.hits_this_level := by
  intro l
  induction l with
  | nil => intro i g; rfl
  | cons d rest ih =>
    intro i g
    simp only [duckPass]
    split_ifs <;> rw [ih] <;> rfl

/-- The duck loop never touches the level number. -/
lemma duckPass_level (o : TickOracle) (dt : ℚ) :
    ∀ (l : List Duck) (i : ℕ) (g : Game),
      (duckPass o dt i l g).level = g.level := by
  intro l
  induction l with
  | nil => intro i g; rfl
  | cons d rest ih =>
    intro i g
    simp only [duckPass]
    split_ifs <;> rw [ih] <;> rfl

/-- The duck loop can only lower health. -/
lemma duckPass_health_le (o : TickOracle) (dt : ℚ) :
    ∀ (l : List Duck) (i : ℕ) (g : Game),
      (duckPass o dt i l g).health ≤ g.health := by
  intro l
  induction l with
  | nil => intro i g; exact le_refl _
  | cons d rest ih =>
    intro i g
    simp only [duckPass]
    split_ifs <;>
      refine le_trans (ih _ _) ?_ <;>
      simp [onLevelFailed] <;>
      omega

/-- A shot never changes health. -/
lemma shootAt_health (so : ShotOracle) (g : Game) (x y : ℚ) :
    (shootAt so g x y).health = g.health := by
  simp only [shootAt]
  split_ifs <;> try rfl
  split <;> rfl

/-- A shot never changes the pause flag. -/
lemma shootAt_paused (so : ShotOracle) (g : Game) (x y : ℚ) :
    (shootAt so g x y).paused = g.paused := by
  simp only [shootAt]
  split_ifs <;> try rfl
  split <;> rfl

/-- A shot raises the hit counter by at most one. -/
lemma shootAt_hits_le (so : ShotOracle) (g : Game) (x y : ℚ) :
    (shootAt so g x y).hits_this_level ≤ g.hits_this_level + 1 := by
  simp only [shootAt]
  split_ifs <;> (try split) <;> (try simp) <;> omega

/-- Spawning never changes the FSM state. -/
lemma spawnPhase_state (o : TickOracle) (g : Game) (dt : ℚ) :
    (spawnPhase o g dt).state = g.state := by
  simp only [spawnPhase]
  split_ifs <;> rfl

/-- Spawning never changes health. -/
lemma spawnPhase_health (o : TickOracle) (g : Game) (dt : ℚ) :
    (spawnPhase o g dt).health = g.health := by
  simp only [spawnPhase]
  split_ifs <;> rfl

/-- Spawning never changes the hit counter. -/
lemma spawnPhase_hits (o : TickOracle) (g : Game) (dt : ℚ) :
    (spawnPhase o g dt).hits_this_level = g.hits_this_level := by
  simp only [spawnPhase]
  split_ifs <;> rfl

/-- Spawning never changes the level. -/
lemma spawnPhase_level (o : TickOracle) (g : Game) (dt : ℚ) :
    (spawnPhase o g dt).level = g.level := by
  simp only [spawnPhase]
  split_ifs <;> rfl

/-- Health after `Game.update` never exceeds health before. -/
lemma update_health_le (o : TickOracle) (g : Game) (dt : ℚ) :
    (g.update o dt).health ≤ g.health := by
  simp only [Game.update]
  split_ifs <;>
    first
      | exact le_refl _
      | exact le_trans (duckPass_health_le o dt _ _ _)
          (le_of_eq (spawnPhase_health o _ dt))

/-- Click handling keeps health at or below the per-level maximum. -/
lemma onClick_health_le (so : ShotOracle) (g : Game) (x y : ℚ)
    (h : g.health ≤ HEALTH_PER_LEVEL) :
    (onClick so g x y).health ≤ HEALTH_PER_LEVEL := by
  rcases hs : g.state <;> simp only [onClick, hs]
  · rw [shootAt_health]; exact h
  · split_ifs
    · exact h
    · exact le_refl _
  · exact le_refl _
  · exact le_refl _

/-- Event dispatch keeps health at or below the per-level maximum. -/
lemma handleEvent_health_le (so : ShotOracle) (g : Game) (e : Event)
    (h : g.health ≤ HEALTH_PER_LEVEL) :
    (handleEvent so g e).health ≤ HEALTH_PER_LEVEL := by
  cases e with
  | click x y => exact onClick_health_le so g x y h
  | keyP => exact h
  | keyN => simp only [handleEvent]; split_ifs <;> exact h

/-- The event loop keeps health at or below the per-level maximum. -/
lemma processEvents_health_le (so : ℕ → ShotOracle) :
    ∀ (evts : List Event) (i : ℕ) (g : Game), g.health ≤ HEALTH_PER_LEVEL →
      (processEvents so i g evts).health ≤ HEALTH_PER_LEVEL := by
  intro evts
  induction evts with
  | nil => intro i g h; exact h
  | cons e es ih =>
    intro i g h
    exact ih _ _ (handleEvent_health_le _ _ _ h)

/-- A full main-loop iteration keeps health at or below the maximum. -/
lemma tick_health_le (o : TickOracle) (so : ℕ → ShotOracle) (g : Game)
    (evts : List Event) (dt : ℚ) (h : g.health ≤ HEALTH_PER_LEVEL) :
    (tick o so g evts dt).health ≤ HEALTH_PER_LEVEL := by
  simp only [tick]
  split_ifs
  · exact processEvents_health_le so evts 0 g h
  · exact le_trans (update_health_le _ _ _) (processEvents_health_le so evts 0 g h)

/-- Every reachable state has health at most `HEALTH_PER_LEVEL`. -/
lemma reachable_health_le (g : Game) (h : Reachable g) :
    g.health ≤ HEALTH_PER_LEVEL := by
  induction h with
  | init clouds => exact le_refl _
  | step o so g evts dt _ ih => exact tick_health_le o so g evts dt ih

/-- When `playing` with the quota already met, `Game.update` leaves the
`playing` state through `_on_level_cleared`: directly to `victory` on the
last level and to `level_end` otherwise. -/
lemma update_state_of_hits (o : TickOracle) (g : Game) (dt : ℚ)
    (hs : g.state = GState.playing) (hh : DUCKS_TO_CLEAR ≤ g.hits_this_level) :
    (g.update o dt).state =
      if TOTAL_LEVELS ≤ g.level then GState.victory else GState.level_end := by
  simp only [Game.update]
  split_ifs with h1 <;>
    first
      | exact absurd hs h1
      | simp_all [onLevelCleared, duckPass_hits, duckPass_level,
          spawnPhase_hits, spawnPhase_level]


/-! Equation lemmas for the branches of `Game.shoot_at`. -/

/-- The duck examination only reads the duck list, so consuming a bullet
first does not change its result. -/
lemma killedIdx_bullets (g : Game) (b : Option ℕ) (x y : ℚ) :
    killedIdx { g with bullets := b } x y = killedIdx g x y := rfl

/-- With an empty finite pool the shot only raises the no-bullets notice. -/
lemma shootAt_noBullets (so : ShotOracle) (g : Game) (x y : ℚ)
    (hs : g.state = GState.playing) (hb : bulletsIsZero g.bullets = true) :
    shootAt so g x y =
      { g with message := Msg.noBullets, message_time := 16/10 } := by
  simp [shootAt, hs, hb]

/-- With bullets available, a shot that kills duck `i` consumes a bullet,
marks exactly that duck dead, adds the score bonus, bumps the hit counter,
appends the 16 particles and raises the hit notice. -/
lemma shootAt_kill_eq (so : ShotOracle) (g : Game) (x y : ℚ) (i : ℕ)
    (hs : g.state = GState.playing) (hb : bulletsIsZero g.bullets = false)
    (hk : killedIdx g x y = some i) :
    shootAt so g x y =
      { g with bullets := decBullets g.bullets,
               ducks := g.ducks.set i
                 { g.ducks.getD i dfltDuck with
                     dead := true, fall_speed := 80 + so.rFall * 80 },
               score := g.score + 100 + g.level * 20,
               hits_this_level := g.hits_this_level + 1,
               particles := g.particles ++ (List.range 16).map
                 fun k => mkParticle (g.ducks.getD i dfltDuck).x
                   (g.ducks.getD i dfltDuck).y (so.pdraw k),
               message := Msg.hit, message_time := 12/10 } := by
  simp only [shootAt]
  rw [if_neg (by simp [hs]), if_neg (by simp [hb]),
    show killedIdx { g with bullets := decBullets g.bullets } x y = some i from
      (killedIdx_bullets g _ x y).trans hk]

/-- With bullets available, a shot that matches no duck consumes a bullet
and raises the miss notice, and nothing else. -/
lemma shootAt_miss_eq (so : ShotOracle) (g : Game) (x y : ℚ)
    (hs : g.state = GState.playing) (hb : bulletsIsZero g.bullets = false)
    (hm : killedIdx g x y = none) :
    shootAt so g x y =
      { g with bullets := decBullets g.bullets,
               message := Msg.miss, message_time := 9/10 } := by
  simp only [shootAt]
  rw [if_neg (by simp [hs]), if_neg (by simp [hb]),
    show killedIdx { g with bullets := decBullets g.bullets } x y = none from
      (killedIdx_bullets g _ x y).trans hm]

/-- A shot with bullets available always consumes `decBullets`. -/
lemma shootAt_bullets (so : ShotOracle) (g : Game) (x y : ℚ)
    (hs : g.state = GState.playing) (hb : bulletsIsZero g.bullets = false) :
    (shootAt so g x y).bullets = decBullets g.bullets := by
  simp only [shootAt]
  rw [if_neg (by simp [hs]), if_neg (by simp [hb])]
  split <;> rfl

/-- The spawn-interval formula of `Game._setup_level`, as a function of the
level: `max(0.35, 1.2 - (level - 1) * 0.08)`. -/
def spawnRateFn (L : ℕ) : ℚ := max (35/100) (12/10 - ((L : ℚ) - 1) * (8/100))

/-! Fixture inputs used by the witnesses and the concrete traces. -/

/-- A fixed shot oracle (all random draws zero). -/
def wSo : ShotOracle := { rFall := 0, pdraw := fun _ => (0, 0, 0, 0) }

/-- A fixed shot-oracle sequence. -/
def wSos : ℕ → ShotOracle := fun _ => wSo

/-- Duck draws entering from the right at height 300 with speed jitter `r`
and all other draws zero. -/
def drawR (r : ℚ) : DuckDraws :=
  { side_left := false, y0 := 300, r := r, rAmp := 0, rPeriod := 0, flap0 := 0 }

/-- A tick oracle spawning right-entering ducks with speed jitter `r`, no
bonus duck, zero wobble. -/
def oT (r : ℚ) : TickOracle :=
  { cloudR := fun _ => 0, spawn1 := drawR r, spawn2 := drawR 0,
    bonusRoll := 1/2, wobble := fun _ => 0, drift := fun _ => true }

/-- A plain in-play game used as a witness fixture. -/
def wPlaying : Game :=
  { level := 1, score := 0, health := 5, bullets := none, ducks := [],
    particles := [], hits_this_level := 0, time_since_last_spawn := 0,
    spawn_rate := 6/5, paused := false, message := Msg.empty,
    message_time := 0, state := GState.playing, clouds := [] }


/-- C3: for level ≤ 5 the pool set up is unlimited and a shot never
decrements a finite counter; for level > 5 the pool starts at
`BULLETS_AFTER_LEVEL_5`; every shot attempt in `playing` with a nonempty
finite pool (hit or miss) decrements it by exactly one; a shot with the
pool at 0 is rejected with the no-bullets notice and no other change. -/
theorem C3_bullet_pool (so : ShotOracle) (g : Game) (x y : ℚ) (n : ℕ) :
    (g.level ≤ 5 → (setupLevel g).bullets = none) ∧
    (g.state = GState.playing → g.bullets = none →
      (shootAt so g x y).bullets = none) ∧
    (5 < g.level → (setupLevel g).bullets = some BULLETS_AFTER_LEVEL_5) ∧
    (g.state = GState.playing → g.bullets = some (n + 1) →
      (shootAt so g x y).bullets = some n) ∧
    (g.state = GState.playing → g.bullets = some 0 →
      shootAt so g x y =
        { g with message := Msg.noBullets, message_time := 16/10 }) := by
  refine ⟨?_, ?_, ?_, ?_, ?_⟩
  · intro h
    show (if 5 < g.level then some BULLETS_AFTER_LEVEL_5 else none) = none
    rw [if_neg (by omega)]
  · intro hs hb
    rw [shootAt_bullets so g x y hs (by rw [hb]; rfl), hb]
    rfl
  · intro h
    show (if 5 < g.level then some BULLETS_AFTER_LEVEL_5 else none) = _
    rw [if_pos h]
  · intro hs hb
    rw [shootAt_bullets so g x y hs (by rw [hb]; simp [bulletsIsZero]), hb]
    rfl
  · intro hs hb
    exact shootAt_noBullets so g x y hs (by rw [hb]; rfl)

/-- Witness for C3 at concrete games: level 1 (unlimited pool), level 6
(pool 15), a finite pool of 3 decremented to 2, and a rejected shot at 0. -/
theorem C3_witness :
    (setupLevel wPlaying).bullets = none ∧
    (shootAt wSo wPlaying 0 0).bullets = none ∧
    (setupLevel { wPlaying with level := 6 }).bullets =
      some BULLETS_AFTER_LEVEL_5 ∧
    (shootAt wSo { wPlaying with bullets := some 3 } 0 0).bullets = some 2 ∧
    shootAt wSo { wPlaying with bullets := some 0 } 0 0 =
      { wPlaying with bullets := some 0,
                      message := Msg.noBullets, message_time := 16/10 } :=
  ⟨(C3_bullet_pool wSo wPlaying 0 0 0).1 (by decide),
   (C3_bullet_pool wSo wPlaying 0 0 0).2.1 rfl rfl,
   (C3_bullet_pool wSo { wPlaying with level := 6 } 0 0 0).2.2.1 (by decide),
   (C3_bullet_pool wSo { wPlaying with bullets := some 3 } 0 0 2).2.2.2.1
     rfl rfl,
   (C3_bullet_pool wSo { wPlaying with bullets := some 0 } 0 0 0).2.2.2.2
     rfl rfl⟩

/-- C7: a click in `game_over` re-runs `_setup_level` on the same level:
health, hit counter, ducks and particles are reset while score and level
are preserved; a click in `victory` additionally resets level to 1 and
score to 0 before the same setup. -/
theorem C7_restart_resets (so : ShotOracle) (g : Game) (x y : ℚ) :
    (g.state = GState.game_over →
      onClick so g x y = setupLevel g ∧
      (onClick so g x y).health = HEALTH_PER_LEVEL ∧
      (onClick so g x y).hits_this_level = 0 ∧
      (onClick so g x y).ducks = [] ∧
      (onClick so g x y).particles = [] ∧
      (onClick so g x y).score = g.score ∧
      (onClick so g x y).level = g.level ∧
      (onClick so g x y).state = GState.playing) ∧
    (g.state = GState.victory →
      onClick so g x y = setupLevel { g with level := 1, score := 0 } ∧
      (onClick so g x y).level = 1 ∧
      (onClick so g x y).score = 0 ∧
      (onClick so g x y).health = HEALTH_PER_LEVEL ∧
      (onClick so g x y).hits_this_level = 0 ∧
      (onClick so g x y).ducks = [] ∧
      (onClick so g x y).particles = [] ∧
      (onClick so g x y).state = GState.playing) := by
  constructor
  · intro h
    simp [onClick, h, setupLevel]
  · intro h
    simp [onClick, h, setupLevel]

/-- A `game_over` fixture with score 7 on level 3. -/
def wGO : Game := { wPlaying with state := GState.game_over, score := 7, level := 3 }

/-- A `victory` fixture with score 9 on level 10. -/
def wVic : Game := { wPlaying with state := GState.victory, score := 9, level := 10 }

/-- Witness for C7 at a `game_over` game (score 7, level 3) and a `victory`
game (score 9, level 10). -/
theorem C7_witness :
    (onClick wSo wGO 0 0).score = 7 ∧
    (onClick wSo wGO 0 0).level = 3 ∧
    (onClick wSo wGO 0 0).health = HEALTH_PER_LEVEL ∧
    (onClick wSo wVic 0 0).level = 1 ∧
    (onClick wSo wVic 0 0).score = 0 :=
  ⟨((C7_restart_resets wSo _ 0 0).1 rfl).2.2.2.2.2.1,
   ((C7_restart_resets wSo _ 0 0).1 rfl).2.2.2.2.2.2.1,
   ((C7_restart_resets wSo _ 0 0).1 rfl).2.1,
   ((C7_restart_resets wSo _ 0 0).2 rfl).2.1,
   ((C7_restart_resets wSo _ 0 0).2 rfl).2.2.1⟩

/-- C8: `_setup_level` computes the spawn interval by `spawnRateFn`, which
is non-increasing in the level and bounded below by the positive floor
`0.35` for every level ≥ 1. -/
theorem C8_spawn_interval (g : Game) (L1 L2 : ℕ) :
    (setupLevel g).spawn_rate = spawnRateFn g.level ∧
    (1 ≤ L1 → L1 ≤ L2 → spawnRateFn L2 ≤ spawnRateFn L1) ∧
    (1 ≤ L1 → 35/100 ≤ spawnRateFn L1) ∧ (0 : ℚ) < 35/100 := by
  refine ⟨rfl, ?_, ?_, by norm_num⟩
  · intro _ h
    apply max_le_max (le_refl _)
    have hc : (L1 : ℚ) ≤ (L2 : ℚ) := Nat.cast_le.mpr h
    nlinarith
  · intro _
    exact le_max_left _ _

/-- Witness for C8 at levels 1 ≤ 4: interval at the fixture game, the
monotone step and the floor. -/
theorem C8_witness :
    (setupLevel wPlaying).spawn_rate = spawnRateFn wPlaying.level ∧
    spawnRateFn 4 ≤ spawnRateFn 1 ∧ 35/100 ≤ spawnRateFn 1 :=
  ⟨(C8_spawn_interval wPlaying 1 4).1,
   (C8_spawn_interval wPlaying 1 4).2.1 (by decide) (by decide),
   (C8_spawn_interval wPlaying 1 4).2.2.1 (by decide)⟩

/-- C10: `Game.update` in any state other than `playing` only moves the
decorative clouds and decays the message timer toward 0; ducks, particles,
spawn timer, health, score, hit counter, bullets, level and the FSM state
are untouched. -/
theorem C10_nonplaying_update (o : TickOracle) (g : Game) (dt : ℚ)
    (hs : g.state ≠ GState.playing) :
    g.update o dt = { g with clouds := updateClouds o dt g.clouds,
                             message_time := max 0 (g.message_time - dt) } := by
  simp only [Game.update]
  rw [if_pos hs]

/-- Witness for C10: a `level_end` game updated with dt = 1. -/
theorem C10_witness :
    ({ wPlaying with state := GState.level_end }.state ≠ GState.playing) ∧
    { wPlaying with state := GState.level_end }.update (oT 0) 1 =
      { wPlaying with state := GState.level_end,
                      clouds := updateClouds (oT 0) 1 [],
                      message_time := max 0 (0 - 1) } :=
  ⟨by decide, C10_nonplaying_update (oT 0) _ 1 (by decide)⟩


/-! Hit-resolution order: the first match in the distance-sorted list is a
minimum-distance match. -/

/-- A successful `find?` on a list sorted by a rational key returns an
element whose key is minimal among all matching elements. -/
lemma find?_min_key {α : Type} (key : α → ℚ) (p : α → Bool) :
    ∀ (l : List α) (a : α),
      l.Pairwise (fun u v => key u ≤ key v) → l.find? p = some a →
      ∀ b ∈ l, p b = true → key a ≤ key b := by
  intro l
  induction l with
  | nil => intro a _ hf; simp at hf
  | cons hd t ih =>
    intro a hpw hf b hb hpb
    rcases List.pairwise_cons.mp hpw with ⟨hhd, ht⟩
    rw [List.find?_cons] at hf
    by_cases hp : p hd
    · rw [hp] at hf
      simp only [cond_true, Option.some.injEq] at hf
      subst hf
      rcases List.mem_cons.mp hb with hbh | hbt
      · subst hbh; exact le_refl _
      · exact hhd b hbt
    · rw [Bool.not_eq_true] at hp
      rw [hp] at hf
      simp only [cond_false] at hf
      rcases List.mem_cons.mp hb with hbh | hbt
      · subst hbh; exact absurd hpb (by rw [hp]; simp)
      · exact ih a ht hf b hbt hpb

/-- The index order produced by `sortIdx` is sorted by squared distance. -/
lemma sortIdx_pairwise (g : Game) (x y : ℚ) :
    (sortIdx g x y).Pairwise (fun i j =>
      dist2 (g.ducks.getD i dfltDuck) x y ≤
      dist2 (g.ducks.getD j dfltDuck) x y) := by
  have h := @List.sorted_mergeSort ℕ
    (fun i j => decide (dist2 (g.ducks.getD i dfltDuck) x y ≤
      dist2 (g.ducks.getD j dfltDuck) x y))
    (fun a b c hab hbc => by
      simp only [decide_eq_true_eq] at *
      exact le_trans hab hbc)
    (fun a b => by
      simp only [Bool.or_eq_true, decide_eq_true_eq]
      exact le_total _ _)
    (List.range g.ducks.length)
  exact h.imp fun hab => by simpa using hab

/-- Membership in the examination order is exactly being a duck index. -/
lemma mem_sortIdx {g : Game} {x y : ℚ} {j : ℕ} :
    j ∈ sortIdx g x y ↔ j < g.ducks.length := by
  unfold sortIdx
  rw [(List.mergeSort_perm _ _).mem_iff, List.mem_range]

/-- Positional lookup of an in-range index is a member of the list. -/
lemma getD_mem_of_lt {l : List Duck} {j : ℕ} (h : j < l.length) :
    l.getD j dfltDuck ∈ l := by
  rw [List.getD_eq_getElem?_getD, List.getElem?_eq_getElem h]
  simpa using List.getElem_mem h

/-- When no duck passes the hit test, the examination finds nothing. -/
lemma killedIdx_eq_none (g : Game) (x y : ℚ)
    (h : ∀ d ∈ g.ducks, d.hitTest x y = false) :
    killedIdx g x y = none := by
  have hall : ∀ j ∈ sortIdx g x y,
      ¬((g.ducks.getD j dfltDuck).hitTest x y = true) := by
    intro j hj
    have hjl : j < g.ducks.length := mem_sortIdx.mp hj
    rw [h _ (getD_mem_of_lt hjl)]
    simp
  exact List.find?_eq_none.mpr hall

/-- C4: when a shot in `playing` with bullets available kills duck `i`, that
duck passes the hit test (so it is alive and its 0.6-scaled ellipse contains
the shot point), it has minimal squared distance — equivalently minimal
Euclidean distance — among all ducks passing the test, and exactly that one
duck is marked dead while score is awarded and the hit counter increments
by 1. -/
theorem C4_nearest_duck_killed (so : ShotOracle) (g : Game) (x y : ℚ) (i : ℕ)
    (hs : g.state = GState.playing) (hb : bulletsIsZero g.bullets = false)
    (hk : killedIdx g x y = some i) :
    i < g.ducks.length ∧
    (g.ducks.getD i dfltDuck).hitTest x y = true ∧
    (∀ j, j < g.ducks.length → (g.ducks.getD j dfltDuck).hitTest x y = true →
      dist2 (g.ducks.getD i dfltDuck) x y ≤
      dist2 (g.ducks.getD j dfltDuck) x y) ∧
    shootAt so g x y =
      { g with bullets := decBullets g.bullets,
               ducks := g.ducks.set i
                 { g.ducks.getD i dfltDuck with
                     dead := true, fall_speed := 80 + so.rFall * 80 },
               score := g.score + 100 + g.level * 20,
               hits_this_level := g.hits_this_level + 1,
               particles := g.particles ++ (List.range 16).map
                 fun k => mkParticle (g.ducks.getD i dfltDuck).x
                   (g.ducks.getD i dfltDuck).y (so.pdraw k),
               message := Msg.hit, message_time := 12/10 } := by
  have hk' : (sortIdx g x y).find?
      (fun n => (g.ducks.getD n dfltDuck).hitTest x y) = some i := hk
  have hmem : i ∈ sortIdx g x y := List.mem_of_find?_eq_some hk'
  have hpi : (g.ducks.getD i dfltDuck).hitTest x y = true := by
    have hfs := List.find?_some hk'
    simpa using hfs
  refine ⟨mem_sortIdx.mp hmem, hpi, ?_,
    shootAt_kill_eq so g x y i hs hb hk⟩
  intro j hj hpj
  exact find?_min_key (fun n => dist2 (g.ducks.getD n dfltDuck) x y)
    (fun n => (g.ducks.getD n dfltDuck).hitTest x y) (sortIdx g x y) i
    (sortIdx_pairwise g x y) hk' j (mem_sortIdx.mpr hj) hpj

/-- An in-play fixture with a single live duck centered at the origin. -/
def wG4 : Game := { wPlaying with ducks := [dfltDuck] }

/-- Witness for C4: shooting at the center of the single live duck kills
duck 0, which trivially has minimal distance. -/
theorem C4_witness :
    killedIdx wG4 0 0 = some 0 ∧ 0 < wG4.ducks.length ∧
    (wG4.ducks.getD 0 dfltDuck).hitTest 0 0 = true := by
  have hk : killedIdx wG4 0 0 = some 0 := by
    simp [killedIdx, sortIdx, wG4, wPlaying, List.mergeSort, List.range_succ,
      List.find?_cons, Duck.hitTest, dfltDuck]
  exact ⟨hk, (C4_nearest_duck_killed wSo wG4 0 0 0 rfl rfl hk).1,
    (C4_nearest_duck_killed wSo wG4 0 0 0 rfl rfl hk).2.1⟩

/-- C6: a shot in `playing` with bullets available that matches no live duck
changes nothing but the bullet pool and the raised miss notice: the duck
list (hence every duck's dead flag), score, hit counter, health, level and
FSM state are unchanged. -/
theorem C6_miss_frame (so : ShotOracle) (g : Game) (x y : ℚ)
    (hs : g.state = GState.playing) (hb : bulletsIsZero g.bullets = false)
    (hm : ∀ d ∈ g.ducks, d.hitTest x y = false) :
    shootAt so g x y =
      { g with bullets := decBullets g.bullets,
               message := Msg.miss, message_time := 9/10 } :=
  shootAt_miss_eq so g x y hs hb (killedIdx_eq_none g x y hm)

/-- An in-play fixture with a finite pool and a single dead duck (which can
match no shot). -/
def wG6 : Game :=
  { wPlaying with
      bullets := some 5
      ducks := [{ dfltDuck with dead := true }] }

/-- Witness for C6: a shot matching nothing consumes one of the 5 bullets
and raises the miss notice only. -/
theorem C6_witness :
    (∀ d ∈ wG6.ducks, d.hitTest 0 0 = false) ∧
    shootAt wSo wG6 0 0 =
      { wG6 with bullets := decBullets wG6.bullets,
                 message := Msg.miss, message_time := 9/10 } := by
  have hm : ∀ d ∈ wG6.ducks, d.hitTest 0 0 = false := by
    simp [wG6, wPlaying, Duck.hitTest, dfltDuck]
  exact ⟨hm, C6_miss_frame wSo wG6 0 0 rfl rfl hm⟩


/-! Pause routing: clicks never change the pause flag. -/

/-- A click while not `playing` never changes the pause flag either. -/
lemma onClick_paused (so : ShotOracle) (g : Game) (x y : ℚ) :
    (onClick so g x y).paused = g.paused := by
  rcases hs : g.state <;> simp only [onClick, hs]
  · exact shootAt_paused so g x y
  · split_ifs <;> rfl
  · rfl
  · rfl

/-- Dispatching a batch of clicks is a fold of `on_click` that keeps the
pause flag. -/
lemma processEvents_clicks_paused (so : ℕ → ShotOracle) :
    ∀ (evts : List Event) (i : ℕ) (g : Game),
      (∀ e ∈ evts, ∃ x y, e = Event.click x y) →
      (processEvents so i g evts).paused = g.paused := by
  intro evts
  induction evts with
  | nil => intro i g _; rfl
  | cons e es ih =>
    intro i g hc
    rcases hc e (List.mem_cons_self e es) with ⟨x, y, rfl⟩
    rw [processEvents]
    rw [ih _ _ fun e he => hc e (List.mem_cons_of_mem _ he)]
    exact onClick_paused (so i) g x y

/-- C9: while the pause flag is set, a frame whose pending events are all
mouse clicks reduces to just dispatching those clicks through `on_click`
(which shoots in `playing` and advances the state machine otherwise);
`Game.update(dt)` is skipped entirely, so no entity or timer advances
between the clicks. -/
theorem C9_paused_clicks_routed (o : TickOracle) (so : ℕ → ShotOracle)
    (g : Game) (evts : List Event) (dt : ℚ) (hp : g.paused = true)
    (hc : ∀ e ∈ evts, ∃ x y, e = Event.click x y) :
    tick o so g evts dt = processEvents so 0 g evts := by
  simp only [tick]
  rw [if_pos]
  rw [processEvents_clicks_paused so evts 0 g hc, hp]

/-- Witness for C9: a paused in-play game with one bullet left and one live
duck at the origin; the single click is routed (killing the duck and
consuming the bullet) and no update runs. -/
theorem C9_witness :
    ({ wG4 with paused := true, bullets := some 1 }.paused = true) ∧
    tick (oT 0) wSos { wG4 with paused := true, bullets := some 1 }
        [Event.click 0 0] 5 =
      processEvents wSos 0 { wG4 with paused := true, bullets := some 1 }
        [Event.click 0 0] :=
  ⟨rfl, C9_paused_clicks_routed (oT 0) wSos _ [Event.click 0 0] 5 rfl
    (by intro e he; simp at he; exact ⟨0, 0, he⟩)⟩

/-- The escape test of the duck loop applied to the updated duck at
snapshot index `i`: the duck is still alive after its update and its x is
past either horizontal margin. -/
def escapes (o : TickOracle) (dt : ℚ) (i : ℕ) (d : Duck) : Bool :=
  let du := d.update (o.wobble i) (o.drift i) dt
  decide (du.dead = false ∧ (du.x < -140 ∨ SCREEN_W + 140 < du.x))

/-- Number of ducks of a snapshot (indexed from `i`) that escape during
this tick's duck loop. -/
def countEscapes (o : TickOracle) (dt : ℚ) : ℕ → List Duck → ℕ
  | _, [] => 0
  | i, d :: rest =>
    (if escapes o dt i d then 1 else 0) + countEscapes o dt (i+1) rest

/-- The spawn control only reads fields the cloud pass never touches, so
its duck output ignores the clouds. -/
lemma spawnPhase_ducks_clouds (o : TickOracle) (g : Game) (c : List Cloud)
    (dt : ℚ) :
    (spawnPhase o { g with clouds := c } dt).ducks =
      (spawnPhase o g dt).ducks := by
  simp only [spawnPhase]
  split_ifs <;> rfl

/-- `_on_level_cleared` never lands in `game_over`. -/
lemma onLevelCleared_state_ne (g : Game) :
    (onLevelCleared g).state ≠ GState.game_over := by
  simp only [onLevelCleared]
  split_ifs <;> simp

/-- A duck-loop pass over a snapshot with no escaping duck preserves health
and the FSM state. -/
lemma duckPass_no_escape (o : TickOracle) (dt : ℚ) :
    ∀ (l : List Duck) (i : ℕ) (g : Game), countEscapes o dt i l = 0 →
      (duckPass o dt i l g).health = g.health ∧
      (duckPass o dt i l g).state = g.state := by
  intro l
  induction l with
  | nil => intro i g _; exact ⟨rfl, rfl⟩
  | cons d rest ih =>
    intro i g hc
    simp only [countEscapes] at hc
    simp only [duckPass]
    split_ifs with h1 h2 h3
    · exfalso
      rw [if_pos (by simp only [escapes, decide_eq_true_eq]; exact ⟨h1, h2⟩)]
        at hc
      omega
    · exfalso
      rw [if_pos (by simp only [escapes, decide_eq_true_eq]; exact ⟨h1, h2⟩)]
        at hc
      omega
    · exact ih _ _ (by split_ifs at hc <;> omega)
    · exact ih _ _ (by split_ifs at hc <;> omega)
    · exact ih _ _ (by split_ifs at hc <;> omega)

/-- A duck-loop pass from `playing` with positive health over a snapshot in
which at most one duck escapes keeps health at or above 0 and lands in
`game_over` exactly when health reaches 0.  The loop keeps running past the
other ducks of the snapshot after the transition; the at-most-one-escape
bound is what prevents further decrements. -/
lemma duckPass_single_escape (o : TickOracle) (dt : ℚ) :
    ∀ (l : List Duck) (i : ℕ) (g : Game), g.state = GState.playing →
      0 < g.health → countEscapes o dt i l ≤ 1 →
      0 ≤ (duckPass o dt i l g).health ∧
      ((duckPass o dt i l g).state = GState.game_over ↔
        (duckPass o dt i l g).health = 0) := by
  intro l
  induction l with
  | nil =>
    intro i g hs hh _
    constructor
    · show (0 : ℤ) ≤ g.health
      omega
    · show g.state = GState.game_over ↔ g.health = 0
      rw [hs]
      exact ⟨fun hcon => absurd hcon (by decide),
             fun h0 => absurd h0 (by omega)⟩
  | cons d rest ih =>
    intro i g hs hh hc
    simp only [countEscapes] at hc
    simp only [duckPass]
    split_ifs with h1 h2 h3
    · -- this duck escapes and health hits 0: the level fails, and the rest
      -- of the snapshot has no escape left to decrement further
      have hrest : countEscapes o dt (i+1) rest = 0 := by
        rw [if_pos (by simp only [escapes, decide_eq_true_eq]; exact ⟨h1, h2⟩)]
          at hc
        omega
      rcases duckPass_no_escape o dt rest (i+1) _ hrest with ⟨hH, hS⟩
      rw [hH, hS]
      simp at h3
      simp [onLevelFailed]
      omega
    · -- this duck escapes with health remaining: state stays `playing`
      have hrest : countEscapes o dt (i+1) rest = 0 := by
        rw [if_pos (by simp only [escapes, decide_eq_true_eq]; exact ⟨h1, h2⟩)]
          at hc
        omega
      rcases duckPass_no_escape o dt rest (i+1) _ hrest with ⟨hH, hS⟩
      rw [hH, hS]
      simp at h3
      simp [hs]
      omega
    · exact ih _ _ hs hh (by split_ifs at hc <;> omega)
    · exact ih _ _ hs hh (by split_ifs at hc <;> omega)
    · exact ih _ _ hs hh (by split_ifs at hc <;> omega)

/-- C2 (amended): in every reachable state health is at most
`HEALTH_PER_LEVEL`; an update tick from `playing` with positive health in
which at most one duck of the tick's post-spawn snapshot escapes keeps
health at or above 0, and ends in `game_over` exactly when health reaches 0
and the hit quota is not yet met (when it is met, `_on_level_cleared`
overrides the state in the same tick).  With several escapes in one tick
health can drop below 0 and the transition re-fires; see the
counterexample. -/
theorem C2_health_amended (o : TickOracle) (dt : ℚ) (g : Game)
    (hr : Reachable g) (hs : g.state = GState.playing) (hh : 0 < g.health)
    (hesc : countEscapes o dt 0 (spawnPhase o g dt).ducks ≤ 1) :
    g.health ≤ HEALTH_PER_LEVEL ∧
    0 ≤ (g.update o dt).health ∧
    ((g.update o dt).state = GState.game_over ↔
      ((g.update o dt).health = 0 ∧
        g.hits_this_level < DUCKS_TO_CLEAR)) := by
  refine ⟨reachable_health_le g hr, ?_⟩
  simp only [Game.update]
  rw [if_neg (by simp [hs])]
  rcases duckPass_single_escape o dt
      (spawnPhase o { g with clouds := updateClouds o dt g.clouds } dt).ducks
      0 { spawnPhase o { g with clouds := updateClouds o dt g.clouds } dt
          with ducks := [] }
      ((spawnPhase_state o _ dt).trans hs)
      (lt_of_lt_of_eq hh
        (spawnPhase_health o { g with clouds := updateClouds o dt g.clouds }
          dt).symm)
      (by rw [spawnPhase_ducks_clouds]; exact hesc)
    with ⟨hH2, hIff2⟩
  have hhits : (duckPass o dt 0
      (spawnPhase o { g with clouds := updateClouds o dt g.clouds } dt).ducks
      { spawnPhase o { g with clouds := updateClouds o dt g.clouds } dt
        with ducks := [] }).hits_this_level = g.hits_this_level := by
    rw [duckPass_hits]
    exact spawnPhase_hits o _ dt
  constructor
  · split_ifs <;> exact hH2
  · split_ifs with hq
    · have hq' : DUCKS_TO_CLEAR ≤ g.hits_this_level := by
        rw [← hhits]
        exact hq
      constructor
      · intro hcon
        exact absurd hcon (onLevelCleared_state_ne _)
      · rintro ⟨-, hlt⟩
        omega
    · have hq' : ¬ DUCKS_TO_CLEAR ≤ g.hits_this_level := by
        rw [← hhits]
        exact hq
      constructor
      · intro hgo
        exact ⟨hIff2.mp hgo, by omega⟩
      · rintro ⟨h0, -⟩
        exact hIff2.mpr h0


/-- Witness for C2 (amended): the freshly constructed game is reachable and
`playing` with positive health, its first 0-second tick spawns nothing (so
no duck can escape), and the update keeps health at or above 0 without
entering `game_over`. -/
theorem C2_witness :
    Reachable (initGame []) ∧ (initGame []).state = GState.playing ∧
    0 < (initGame []).health ∧
    countEscapes (oT 0) 0 0 (spawnPhase (oT 0) (initGame []) 0).ducks ≤ 1 ∧
    (initGame []).health ≤ HEALTH_PER_LEVEL ∧
    0 ≤ ((initGame []).update (oT 0) 0).health ∧
    (((initGame []).update (oT 0) 0).state = GState.game_over ↔
      (((initGame []).update (oT 0) 0).health = 0 ∧
        (initGame []).hits_this_level < DUCKS_TO_CLEAR)) := by
  have hesc : countEscapes (oT 0) 0 0
      (spawnPhase (oT 0) (initGame []) 0).ducks ≤ 1 := by
    norm_num [spawnPhase, initGame, setupLevel, countEscapes]
  refine ⟨.init [], rfl, by decide, hesc, ?_, ?_, ?_⟩
  · exact (C2_health_amended (oT 0) 0 _ (.init []) rfl (by decide) hesc).1
  · exact (C2_health_amended (oT 0) 0 _ (.init []) rfl (by decide) hesc).2.1
  · exact (C2_health_amended (oT 0) 0 _ (.init []) rfl (by decide) hesc).2.2

/-- Speed jitters for the C2 trace: ducks spawned on ticks 1-5 fly at 120
px/s (escaping on the third tick after spawning), the duck of tick 6 flies
at 132 px/s (escaping on its second tick), so the ducks of ticks 5 and 6
escape together on tick 7 with health already down to 1. -/
def c2r (t : ℕ) : ℚ := if t = 6 then 3/7 else 1/7

/-- The C2 trace: seven frames of 5 seconds each with no input events. -/
def c2g : ℕ → Game
  | 0 => initGame []
  | t+1 => tick (oT (c2r (t+1))) wSos (c2g t) [] 5

/-- Every prefix of the C2 trace is reachable. -/
lemma c2g_reachable : ∀ n, Reachable (c2g n)
  | 0 => .init []
  | n+1 => .step _ _ _ _ _ (c2g_reachable n)

set_option maxHeartbeats 2000000 in
/-- Counterexample to C2 as stated: after 7 frames in which 4 ducks escape
on ticks 3-6 and two more escape within the same tick 7, the reachable
state has health -1 (outside [0, HEALTH_PER_LEVEL]), the second escape
having decremented health again after the transition to `game_over`. -/
theorem C2_counterexample :
    Reachable (c2g 7) ∧ (c2g 7).health = -1 ∧
    (c2g 7).state = GState.game_over := by
  refine ⟨c2g_reachable 7, ?_⟩
  norm_num [c2g, c2r, tick, processEvents, Game.update, initGame, setupLevel,
      updateClouds, spawnPhase, duckPass, Duck.update, mkDuck, clamp, SCREEN_W, SCREEN_H,
      DUCK_BASE_SPEED, HEALTH_PER_LEVEL, DUCKS_TO_CLEAR, TOTAL_LEVELS,
      onLevelCleared, onLevelFailed, oT, drawR, wSos, wSo]

/-- C1 (amended): reaching the quota in `playing` transitions to
`level_end` on levels 1-9 but directly to `victory` on the last level (no
`level_end` stop, no click needed); a click in `level_end` below the last
level advances to the next level through `_setup_level`. -/
theorem C1_level_clear_transitions (o : TickOracle) (so : ShotOracle)
    (g g2 : Game) (dt x y : ℚ)
    (hs : g.state = GState.playing) (hh : DUCKS_TO_CLEAR ≤ g.hits_this_level)
    (h2 : g2.state = GState.level_end) (hl : g2.level < TOTAL_LEVELS) :
    (g.update o dt).state =
      (if TOTAL_LEVELS ≤ g.level then GState.victory else GState.level_end) ∧
    onClick so g2 x y = setupLevel { g2 with level := g2.level + 1 } := by
  refine ⟨update_state_of_hits o g dt hs hh, ?_⟩
  simp only [onClick, h2]
  rw [if_neg (not_le.mpr hl)]

/-- Witness for C1 (amended): a level-1 game with the quota met moves to
`level_end`, and a click there sets up level 2. -/
theorem C1_witness :
    ({ wPlaying with hits_this_level := 10 }.update (oT 0) 0).state =
      GState.level_end ∧
    onClick wSo { wPlaying with state := GState.level_end } 0 0 =
      setupLevel { wPlaying with state := GState.level_end, level := 2 } := by
  have h := C1_level_clear_transitions (oT 0) wSo
    { wPlaying with hits_this_level := 10 }
    { wPlaying with state := GState.level_end } 0 0 0 rfl (by decide) rfl
    (by decide)
  exact ⟨by rw [h.1]; decide, h.2⟩

/-- The C1 trace: with dt = 0 (so no duck ever spawns), alternate the debug
level-skip key and a click, walking through levels 1-9; 18 frames reach
level 10 in state `playing`. -/
def c1g : ℕ → Game
  | 0 => initGame []
  | t+1 => tick (oT 0) wSos (c1g t)
      [if (t+1) % 2 = 1 then Event.keyN else Event.click 0 0] 0

/-- Every prefix of the C1 trace is reachable. -/
lemma c1g_reachable : ∀ n, Reachable (c1g n)
  | 0 => .init []
  | n+1 => .step _ _ _ _ _ (c1g_reachable n)

set_option maxHeartbeats 4000000 in
/-- Counterexample to C1 as stated: in the reachable level-10 `playing`
state, filling the quota transitions directly to `victory`, never to
`level_end` as the claim requires for the last level. -/
theorem C1_counterexample :
    Reachable (c1g 18) ∧ (c1g 18).level = 10 ∧
    (c1g 18).state = GState.playing ∧
    (tick (oT 0) wSos (c1g 18) [Event.keyN] 0).state = GState.victory ∧
    (tick (oT 0) wSos (c1g 18) [Event.keyN] 0).state ≠ GState.level_end := by
  refine ⟨c1g_reachable 18, ?_⟩
  norm_num [c1g, tick, processEvents, handleEvent, onClick, Game.update,
      initGame, setupLevel, updateClouds, spawnPhase, duckPass, clamp, SCREEN_W, SCREEN_H,
      HEALTH_PER_LEVEL, DUCKS_TO_CLEAR, TOTAL_LEVELS, BULLETS_AFTER_LEVEL_5,
      onLevelCleared, onLevelFailed, oT, drawR, wSos, wSo]
  decide

/-- C5 (amended): an update from `playing` with the quota met always leaves
the `playing` state (to `level_end` or `victory`), and a single shot raises
the hit counter by at most 1 — but the transition only happens at the next
unpaused update, so several clicks before it can push the counter past the
quota (see the counterexample). -/
theorem C5_quota_transition (o : TickOracle) (so : ShotOracle) (g g2 : Game)
    (dt x y : ℚ) (hs : g.state = GState.playing)
    (hh : DUCKS_TO_CLEAR ≤ g.hits_this_level) :
    (g.update o dt).state ≠ GState.playing ∧
    (shootAt so g2 x y).hits_this_level ≤ g2.hits_this_level + 1 := by
  refine ⟨?_, shootAt_hits_le so g2 x y⟩
  rw [update_state_of_hits o g dt hs hh]
  split_ifs <;> simp

/-- Witness for C5 (amended) at a quota-met level-1 game and a plain shot. -/
theorem C5_witness :
    ({ wPlaying with hits_this_level := 10 }.update (oT 0) 0).state ≠
      GState.playing ∧
    (shootAt wSo wPlaying 0 0).hits_this_level ≤
      wPlaying.hits_this_level + 1 :=
  C5_quota_transition (oT 0) wSo { wPlaying with hits_this_level := 10 }
    wPlaying 0 0 0 rfl (by decide)

/-- Events of the C5 trace: one 5-second frame spawns a duck (which flies
to (480, 300)); the next frame presses pause and the debug skip key (hits
becomes 10 with update skipped); the third frame clicks the duck while
still paused. -/
def c5evts : ℕ → List Event
  | 1 => []
  | 2 => [Event.keyP, Event.keyN]
  | _ => [Event.click 480 300]

/-- Frame times of the C5 trace: 5 seconds for the spawning frame, then 0. -/
def c5dt : ℕ → ℚ := fun t => if t = 1 then 5 else 0

/-- Tick oracles of the C5 trace: jitter 1/7 on the spawning frame. -/
def c5o : ℕ → TickOracle := fun t => if t = 1 then oT (1/7) else oT 0

/-- The C5 trace as a recursion over frames. -/
def c5g : ℕ → Game
  | 0 => initGame []
  | t+1 => tick (c5o (t+1)) wSos (c5g t) (c5evts (t+1)) (c5dt (t+1))

/-- Every prefix of the C5 trace is reachable. -/
lemma c5g_reachable : ∀ n, Reachable (c5g n)
  | 0 => .init []
  | n+1 => .step _ _ _ _ _ (c5g_reachable n)

set_option maxHeartbeats 2000000 in
/-- Counterexample to C5 as stated: the reachable paused state takes a
click that kills the duck, pushing hits-this-level to 11 > DUCKS_TO_CLEAR
while the state is still `playing` (no transition has fired). -/
theorem C5_counterexample :
    Reachable (c5g 3) ∧ (c5g 3).state = GState.playing ∧
    (c5g 3).hits_this_level = 11 ∧
    DUCKS_TO_CLEAR < (c5g 3).hits_this_level := by
  refine ⟨c5g_reachable 3, ?_⟩
  norm_num [c5g, c5evts, c5dt, c5o, tick, processEvents, handleEvent, onClick, shootAt,
      killedIdx, sortIdx, List.mergeSort, List.range_succ, List.range_zero,
      List.find?_cons, List.find?_nil, dfltDuck, Duck.hitTest, dist2,
      bulletsIsZero, decBullets, mkParticle, Game.update, initGame,
      setupLevel, updateClouds, spawnPhase, duckPass, Duck.update, mkDuck, clamp,
      SCREEN_W, SCREEN_H, DUCK_BASE_SPEED, HEALTH_PER_LEVEL, DUCKS_TO_CLEAR,
      TOTAL_LEVELS, onLevelCleared, onLevelFailed, oT, drawR, wSos, wSo]

end DuckHunt
